import Mathlib

/-!
Verification development for the LocalAudioTran-LLM-Summar repository.

Python strings are modelled as `List Char` (`Str`).  The summary-section
parser of `backend/app/services/summarization.py` (lines 147-302 of
`SummarizationService.generate_summary`) is embedded as a fold of a
per-line step function over the lines of the text.  The surrounding
orchestration (`generate_summary` error handling, the transcription
adapter's temporary-file discipline, and the `/transcribe` endpoint of
`backend/app/main.py`) is embedded with external effects (the HTTP
response of the LLM server, the speech-model outcome, clock readings)
passed in as explicit parameters.
-/

abbrev Str := List Char

/-- Whitespace characters stripped by Python `str.strip()` (ASCII range). -/
def isWs (c : Char) : Bool :=
  c = ' ' || c = '\t' || c = '\n' || c = '\r' || c = '\x0b' || c = '\x0c'

/-- Python `s.strip()`: drop whitespace from both ends. -/
def pyStrip (s : Str) : Str :=
  ((s.dropWhile isWs).reverse.dropWhile isWs).reverse

/-- Python `s.lower()` (ASCII case folding, as needed for the heading keywords). -/
def pyLower (s : Str) : Str := s.map Char.toLower

/-- Python `s.lstrip('- ')`: drop every leading `'-'` or `' '` character. -/
def pyLstripDashSpace (s : Str) : Str :=
  s.dropWhile (fun c => c = '-' || c = ' ')

/-- Python `s.startswith('-')`. -/
def startsWithDash : Str → Bool
  | [] => false
  | c :: _ => c = '-'

/-- Bool-valued prefix test on character lists. -/
def isPrefixChars : Str → Str → Bool
  | [], _ => true
  | _ :: _, [] => false
  | a :: s, b :: t => a == b && isPrefixChars s t

/-- Python `sub in l`: substring containment. -/
def containsSub : Str → Str → Bool
  | [], sub => isPrefixChars sub []
  | c :: t, sub => isPrefixChars sub (c :: t) || containsSub t sub

/-- The characters after the first `':'`; models `line.split(':', 1)[1]`,
which in the source is evaluated only on lines known to contain a colon. -/
def afterFirstColon : Str → Str
  | [] => []
  | c :: t => if c = ':' then t else afterFirstColon t

/-- Python `text.split('\n')`. -/
def splitOnNl : Str → List Str
  | [] => [[]]
  | c :: t =>
    if c = '\n' then [] :: splitOnNl t
    else
      match splitOnNl t with
      | [] => [[c]]
      | h :: r => (c :: h) :: r

/-- Join a list of strings with single `'\n'` separators. -/
def intercalateNl : List Str → Str
  | [] => []
  | [p] => p
  | p :: q :: rest => p ++ '\n' :: intercalateNl (q :: rest)

/-- Python `" ".join(l)`. -/
def joinSpace : List Str → Str
  | [] => []
  | [p] => p
  | p :: q :: rest => p ++ ' ' :: joinSpace (q :: rest)

/-- The six section identifiers of the summary parser. -/
inductive SectionId where
  | overview
  | main_points
  | key_insights
  | action_items_decisions
  | open_questions_next_steps
  | conclusions
deriving DecidableEq, Repr

/-- The `sections` dictionary of `generate_summary`: five list fields, the
`overview` string and the unparsed `full_text`. -/
structure Summary where
  overview : Str
  main_points : List Str
  key_insights : List Str
  action_items_decisions : List Str
  open_questions_next_steps : List Str
  conclusions : List Str
  full_text : Str
deriving DecidableEq, Repr

/-- The mutable state of the parsing loop: the `sections` dictionary,
`current_section` and `current_points`. -/
structure ParseState where
  sections : Summary
  current_section : Option SectionId
  current_points : List Str
deriving DecidableEq, Repr

/-- Heading keyword `'overview:'` (summarization.py line 168). -/
def hOverview : Str := "overview:".data
/-- Heading keyword `'main points:'` (line 186). -/
def hMainPoints : Str := "main points:".data
/-- Heading keyword `'key insights:'` (line 203). -/
def hKeyInsights : Str := "key insights:".data
/-- Heading keyword `'action items / decisions:'` (line 219). -/
def hActionItems : Str := "action items / decisions:".data
/-- Heading keyword `'open questions / next steps:'` (line 235). -/
def hOpenQuestions : Str := "open questions / next steps:".data
/-- Heading keyword `'conclusions:'` (line 251). -/
def hConclusions : Str := "conclusions:".data

/-- The six heading substrings, in the order the source tests them. -/
def sixHeadings : List Str :=
  [hOverview, hMainPoints, hKeyInsights, hActionItems, hOpenQuestions, hConclusions]

/-- `current_section in ['main_points', 'key_insights', 'action_items_decisions',
'open_questions_next_steps', 'conclusions']`. -/
def isListSection : Option SectionId → Bool
  | some SectionId.main_points => true
  | some SectionId.key_insights => true
  | some SectionId.action_items_decisions => true
  | some SectionId.open_questions_next_steps => true
  | some SectionId.conclusions => true
  | _ => false

/-- The `if/elif` chain at lines 170-179 that runs before switching to
`overview`.  Note it has a case for each of the five list sections. -/
def storeBeforeOverview (sections : Summary) (cur : Option SectionId)
    (pts : List Str) : Summary :=
  match cur with
  | some SectionId.main_points => { sections with main_points := pts }
  | some SectionId.key_insights => { sections with key_insights := pts }
  | some SectionId.action_items_decisions => { sections with action_items_decisions := pts }
  | some SectionId.open_questions_next_steps => { sections with open_questions_next_steps := pts }
  | some SectionId.conclusions => { sections with conclusions := pts }
  | _ => sections

/-- The `if/elif` chain at lines 188-198 run before switching to
`main_points`: `overview` is a `pass`, and there is no case for
`main_points` itself (nor for `None`). -/
def storeBeforeMainPoints (sections : Summary) (cur : Option SectionId)
    (pts : List Str) : Summary :=
  match cur with
  | some SectionId.overview => sections
  | some SectionId.key_insights => { sections with key_insights := pts }
  | some SectionId.action_items_decisions => { sections with action_items_decisions := pts }
  | some SectionId.open_questions_next_steps => { sections with open_questions_next_steps := pts }
  | some SectionId.conclusions => { sections with conclusions := pts }
  | _ => sections

/-- The `if/elif` chain at lines 205-214 run before switching to
`key_insights`; no case for `key_insights` itself. -/
def storeBeforeKeyInsights (sections : Summary) (cur : Option SectionId)
    (pts : List Str) : Summary :=
  match cur with
  | some SectionId.main_points => { sections with main_points := pts }
  | some SectionId.overview => sections
  | some SectionId.action_items_decisions => { sections with action_items_decisions := pts }
  | some SectionId.open_questions_next_steps => { sections with open_questions_next_steps := pts }
  | some SectionId.conclusions => { sections with conclusions := pts }
  | _ => sections

/-- The `if/elif` chain at lines 221-230 run before switching to
`action_items_decisions`; no case for `action_items_decisions` itself. -/
def storeBeforeActionItems (sections : Summary) (cur : Option SectionId)
    (pts : List Str) : Summary :=
  match cur with
  | some SectionId.key_insights => { sections with key_insights := pts }
  | some SectionId.main_points => { sections with main_points := pts }
  | some SectionId.overview => sections
  | some SectionId.open_questions_next_steps => { sections with open_questions_next_steps := pts }
  | some SectionId.conclusions => { sections with conclusions := pts }
  | _ => sections

/-- The `if/elif` chain at lines 237-246 run before switching to
`open_questions_next_steps`; no case for that section itself. -/
def storeBeforeOpenQuestions (sections : Summary) (cur : Option SectionId)
    (pts : List Str) : Summary :=
  match cur with
  | some SectionId.action_items_decisions => { sections with action_items_decisions := pts }
  | some SectionId.key_insights => { sections with key_insights := pts }
  | some SectionId.main_points => { sections with main_points := pts }
  | some SectionId.overview => sections
  | some SectionId.conclusions => { sections with conclusions := pts }
  | _ => sections

/-- The `if/elif` chain at lines 253-262 run before switching to
`conclusions`; no case for `conclusions` itself. -/
def storeBeforeConclusions (sections : Summary) (cur : Option SectionId)
    (pts : List Str) : Summary :=
  match cur with
  | some SectionId.open_questions_next_steps => { sections with open_questions_next_steps := pts }
  | some SectionId.action_items_decisions => { sections with action_items_decisions := pts }
  | some SectionId.key_insights => { sections with key_insights := pts }
  | some SectionId.main_points => { sections with main_points := pts }
  | some SectionId.overview => sections
  | _ => sections

/-- Which heading branch (if any) a lowered stripped line lands in; mirrors
the order of the `elif` chain of lines 168-265. -/
def headingOf (lower_line : Str) : Option SectionId :=
  if containsSub lower_line hOverview then some SectionId.overview
  else if containsSub lower_line hMainPoints then some SectionId.main_points
  else if containsSub lower_line hKeyInsights then some SectionId.key_insights
  else if containsSub lower_line hActionItems then some SectionId.action_items_decisions
  else if containsSub lower_line hOpenQuestions then some SectionId.open_questions_next_steps
  else if containsSub lower_line hConclusions then some SectionId.conclusions
  else none

/-- One iteration of the `for line in summary_text.split('\n')` loop body
(summarization.py lines 161-288).  The loop variables `line`
(`line.strip()`) and `lower_line` (`line.lower()`) are inlined as
`pyStrip rawLine` and `pyLower (pyStrip rawLine)`. -/
def processLine (st : ParseState) (rawLine : Str) : ParseState :=
  if pyStrip rawLine = [] then st
  else if containsSub (pyLower (pyStrip rawLine)) hOverview then
    { sections := { storeBeforeOverview st.sections st.current_section st.current_points
        with overview := pyStrip (afterFirstColon (pyStrip rawLine)) },
      current_section := some SectionId.overview, current_points := [] }
  else if containsSub (pyLower (pyStrip rawLine)) hMainPoints then
    { sections := storeBeforeMainPoints st.sections st.current_section st.current_points,
      current_section := some SectionId.main_points, current_points := [] }
  else if containsSub (pyLower (pyStrip rawLine)) hKeyInsights then
    { sections := storeBeforeKeyInsights st.sections st.current_section st.current_points,
      current_section := some SectionId.key_insights, current_points := [] }
  else if containsSub (pyLower (pyStrip rawLine)) hActionItems then
    { sections := storeBeforeActionItems st.sections st.current_section st.current_points,
      current_section := some SectionId.action_items_decisions, current_points := [] }
  else if containsSub (pyLower (pyStrip rawLine)) hOpenQuestions then
    { sections := storeBeforeOpenQuestions st.sections st.current_section st.current_points,
      current_section := some SectionId.open_questions_next_steps, current_points := [] }
  else if containsSub (pyLower (pyStrip rawLine)) hConclusions then
    { sections := storeBeforeConclusions st.sections st.current_section st.current_points,
      current_section := some SectionId.conclusions, current_points := [] }
  else if startsWithDash (pyStrip rawLine) && isListSection st.current_section then
    { st with current_points :=
        st.current_points ++ [pyStrip (pyLstripDashSpace (pyStrip rawLine))] }
  else if st.current_section = some SectionId.overview ∧ st.sections.overview ≠ [] then
    { st with sections :=
        { st.sections with overview := st.sections.overview ++ ' ' :: pyStrip rawLine } }
  else if isListSection st.current_section then
    { st with current_points := st.current_points ++ [pyStrip (pyStrip rawLine)] }
  else st

/-- The flush after the loop (lines 290-300): `if/elif` over the five list
sections; nothing is stored for `overview` or `None`. -/
def finalFlush (st : ParseState) : Summary :=
  match st.current_section with
  | some SectionId.main_points => { st.sections with main_points := st.current_points }
  | some SectionId.key_insights => { st.sections with key_insights := st.current_points }
  | some SectionId.action_items_decisions =>
      { st.sections with action_items_decisions := st.current_points }
  | some SectionId.open_questions_next_steps =>
      { st.sections with open_questions_next_steps := st.current_points }
  | some SectionId.conclusions => { st.sections with conclusions := st.current_points }
  | _ => st.sections

/-- The initial `sections` dictionary (lines 147-155): all fields empty,
`full_text` set to the generated text. -/
def initSections (summary_text : Str) : Summary :=
  { overview := [], main_points := [], key_insights := [],
    action_items_decisions := [], open_questions_next_steps := [],
    conclusions := [], full_text := summary_text }

/-- The summary-section parser: lines 147-302 of `generate_summary`. -/
def parseSummaryText (summary_text : Str) : Summary :=
  finalFlush ((splitOnNl summary_text).foldl processLine
    ⟨initSections summary_text, none, []⟩)

/-- The observable part of the Ollama `/api/generate` HTTP response:
status code, raw body text (used in the error message), and the
`"response"` field of the parsed JSON body. -/
structure OllamaResponse where
  status_code : Nat
  text : Str
  response : Str
deriving DecidableEq, Repr

/-- The fixed record returned for empty input (lines 73-82). -/
def placeholderSummary : Summary :=
  { overview := "No text provided".data, main_points := [], key_insights := [],
    action_items_decisions := [], open_questions_next_steps := [],
    conclusions := [], full_text := [] }

/-- The record built by the `except` clause (lines 304-315), with
`str(e)` passed in. -/
def errorSummary (msg : Str) : Summary :=
  { overview := "Error in summary generation: ".data ++ msg,
    main_points := [], key_insights := [], action_items_decisions := [],
    open_questions_next_steps := [], conclusions := [],
    full_text := "Error in summary generation: ".data ++ msg }

/-- `SummarizationService.generate_summary` (lines 70-315).  The HTTP
response of the generation call is an explicit parameter; a non-200
status raises `Exception(f"Ollama API error: {response.text}")`, which
the function's own `except` clause turns into `errorSummary`. -/
def generate_summary (text : Str) (resp : OllamaResponse) : Summary :=
  if text = [] then placeholderSummary
  else if resp.status_code ≠ 200 then
    errorSummary ("Ollama API error: ".data ++ resp.text)
  else parseSummaryText resp.response

/-- `TranscriptionService.transcribe` (transcription.py lines 29-69),
restricted to what happens after the temporary file holding the upload
is written.  The speech-model outcome is passed in: `ok segments` is the
list of segment texts, `error e` a raised exception message.  The second
component records whether the temporary file still exists on exit: the
file is created with `delete=False` and `os.unlink` runs only after a
successful `model.transcribe` call; the `except` clause re-raises
`Exception(f"Transcription failed: {e}")` without unlinking. -/
def transcribe (modelOutcome : Except Str (List Str)) : Except Str Str × Bool :=
  match modelOutcome with
  | Except.error e => (Except.error ("Transcription failed: ".data ++ e), true)
  | Except.ok segments =>
      let transcription :=
        pyStrip (joinSpace (segments.filter (fun s => pyStrip s ≠ [])))
      (Except.ok transcription, false)

/-- Python exceptions observable in `main.transcribe_audio`. -/
inductive PyExc where
  | httpException (status : Nat) (detail : Str)
  | typeError (msg : Str)
  | exc (msg : Str)
deriving DecidableEq, Repr

/-- Python `str(e)`; for a starlette `HTTPException` this is
`f"{status_code}: {detail}"`. -/
def pyStrExc : PyExc → Str
  | PyExc.httpException status detail => (toString status).data ++ ": ".data ++ detail
  | PyExc.typeError m => m
  | PyExc.exc m => m

/-- The `processing_time` object of the response payload (main.py 58-62),
built from the four `time.time()` readings. -/
structure ProcessingTime where
  transcription : Int
  summarization : Int
  total : Int
deriving DecidableEq, Repr

/-- The JSON payload returned on success (main.py lines 55-63). -/
structure TranscribePayload where
  transcription : Str
  summary : Summary
  processing_time : ProcessingTime
deriving DecidableEq, Repr

/-- The HTTP outcome of the endpoint: a 200 payload, or the status and
detail of a raised `HTTPException`. -/
inductive HttpResult where
  | ok (payload : TranscribePayload)
  | httpError (status : Nat) (detail : Str)
deriving DecidableEq, Repr

/-- Python-call semantics of `summarization_service.generate_summary(...)`:
the method is defined as `def generate_summary(self, text)` (one non-self
parameter, summarization.py line 70), so a positional argument list of any
other length raises a `TypeError`. -/
def callGenerateSummary (args : List Str) (resp : OllamaResponse) :
    Except PyExc Summary :=
  match args with
  | [text] => Except.ok (generate_summary text resp)
  | _ => Except.error (PyExc.typeError
      ("SummarizationService.generate_summary() takes 2 positional arguments but ".data
        ++ (toString (args.length + 1)).data ++ " were given".data))

/-- `main.transcribe_audio` (main.py lines 32-68).  The transcription
outcome, the LLM HTTP response and the four `time.time()` readings are
explicit parameters.  Everything in the `try` block that raises —
including the `HTTPException(400)` at line 48 — is caught by the
`except Exception` clause at line 65 and re-raised as
`HTTPException(500, str(e))`.  Line 51 calls `generate_summary` with the
two positional arguments `llm_name, transcription`. -/
def transcribe_audio (llm_name : Str) (transcribeResult : Except PyExc Str)
    (resp : OllamaResponse) (t0 t1 t2 t3 : Int) : HttpResult :=
  let body : Except PyExc TranscribePayload :=
    match transcribeResult with
    | Except.error e => Except.error e
    | Except.ok transcription =>
        if transcription = [] then
          Except.error (PyExc.httpException 400 "Transcription failed".data)
        else
          match callGenerateSummary [llm_name, transcription] resp with
          | Except.error e => Except.error e
          | Except.ok summary =>
              Except.ok { transcription := transcription, summary := summary,
                          processing_time :=
                            { transcription := t1 - t0, summarization := t2 - t1,
                              total := t3 - t0 } }
  match body with
  | Except.ok payload => HttpResult.ok payload
  | Except.error e => HttpResult.httpError 500 (pyStrExc e)

/-- Statement-side accessor: the list field of a `Summary` named by a list
section (`[]` for `overview`, which has no list field). -/
def Summary.getList (s : Summary) : SectionId → List Str
  | SectionId.main_points => s.main_points
  | SectionId.key_insights => s.key_insights
  | SectionId.action_items_decisions => s.action_items_decisions
  | SectionId.open_questions_next_steps => s.open_questions_next_steps
  | SectionId.conclusions => s.conclusions
  | SectionId.overview => []

/-- Canonical heading line of each section, as prescribed by the system
prompt of `generate_summary`. -/
def headingLine : SectionId → Str
  | SectionId.overview => "Overview:".data
  | SectionId.main_points => "Main Points:".data
  | SectionId.key_insights => "Key Insights:".data
  | SectionId.action_items_decisions => "Action Items / Decisions:".data
  | SectionId.open_questions_next_steps => "Open Questions / Next Steps:".data
  | SectionId.conclusions => "Conclusions:".data

/-- The text reconstructed from one section's parsed list: its heading line
followed by one `"- "` bullet line per item. -/
def reconstructSection (sec : SectionId) (items : List Str) : Str :=
  intercalateNl (headingLine sec :: items.map (fun x => '-' :: ' ' :: x))

/-- `small` occurs contiguously inside `big`. -/
def IsSub (small big : Str) : Prop := ∃ s t, big = s ++ small ++ t

/-- Items stored by the parser are stripped, newline-free, and contain no
heading substring. -/
def GoodItem (x : Str) : Prop :=
  pyStrip x = x ∧ '\n' ∉ x ∧ ∀ hd ∈ sixHeadings, containsSub (pyLower x) hd = false

/-- Every item stored in the five list fields is a `GoodItem`. -/
def GoodSummary (S : Summary) : Prop :=
  (∀ x ∈ S.main_points, GoodItem x) ∧ (∀ x ∈ S.key_insights, GoodItem x) ∧
  (∀ x ∈ S.action_items_decisions, GoodItem x) ∧
  (∀ x ∈ S.open_questions_next_steps, GoodItem x) ∧ (∀ x ∈ S.conclusions, GoodItem x)

/-- Loop invariant of the parse: every accumulated and every stored item is
a `GoodItem`. -/
def GoodState (st : ParseState) : Prop :=
  (∀ x ∈ st.current_points, GoodItem x) ∧ GoodSummary st.sections

/-! ### Helper lemmas about the string model -/

lemma isPrefixChars_iff (s : Str) : ∀ l : Str, isPrefixChars s l = true ↔ ∃ u, s ++ u = l := by
  induction s with
  | nil => intro l; simp [isPrefixChars]
  | cons a s ih =>
    intro l
    cases l with
    | nil => simp [isPrefixChars]
    | cons b t =>
      simp only [isPrefixChars, Bool.and_eq_true, beq_iff_eq, ih t]
      constructor
      · rintro ⟨rfl, u, rfl⟩; exact ⟨u, rfl⟩
      · rintro ⟨u, hu⟩
        injection hu with h1 h2
        exact ⟨h1, u, h2⟩

lemma containsSub_iff (sub : Str) : ∀ l : Str, containsSub l sub = true ↔ IsSub sub l := by
  intro l
  induction l with
  | nil =>
    simp only [containsSub, isPrefixChars_iff, IsSub]
    constructor
    · rintro ⟨u, hu⟩
      rcases List.append_eq_nil.mp hu with ⟨rfl, rfl⟩
      exact ⟨[], [], rfl⟩
    · rintro ⟨s, t, h⟩
      rcases List.append_eq_nil.mp h.symm with ⟨h1, rfl⟩
      rcases List.append_eq_nil.mp h1 with ⟨rfl, rfl⟩
      exact ⟨[], rfl⟩
  | cons c t ih =>
    simp only [containsSub, Bool.or_eq_true, isPrefixChars_iff, ih, IsSub]
    constructor
    · rintro (⟨u, hu⟩ | ⟨s, u, hu⟩)
      · exact ⟨[], u, by simpa using hu.symm⟩
      · exact ⟨c :: s, u, by simp [hu]⟩
    · rintro ⟨s, u, hu⟩
      cases s with
      | nil => exact Or.inl ⟨u, by simpa using hu.symm⟩
      | cons d s' =>
        injection hu with h1 h2
        exact Or.inr ⟨s', u, h2⟩

lemma isSub_refl (l : Str) : IsSub l l := ⟨[], [], by simp⟩

lemma isSub_trans {a b c : Str} (h1 : IsSub a b) (h2 : IsSub b c) : IsSub a c := by
  obtain ⟨s, t, rfl⟩ := h1
  obtain ⟨u, v, rfl⟩ := h2
  exact ⟨u ++ s, t ++ v, by simp⟩

lemma isSub_map (f : Char → Char) {a b : Str} (h : IsSub a b) :
    IsSub (a.map f) (b.map f) := by
  obtain ⟨s, t, rfl⟩ := h
  exact ⟨s.map f, t.map f, by simp⟩

lemma isSub_mem {a b : Str} {x : Char} (h : IsSub a b) (hx : x ∈ a) : x ∈ b := by
  obtain ⟨s, t, rfl⟩ := h
  simp [hx]

lemma containsSub_mono {a b sub : Str} (h : IsSub a b)
    (hb : containsSub b sub = false) : containsSub a sub = false := by
  by_contra hne
  have ha : containsSub a sub = true := by
    cases hcs : containsSub a sub
    · exact absurd hcs hne
    · rfl
  have : containsSub b sub = true :=
    (containsSub_iff sub b).mpr (isSub_trans ((containsSub_iff sub a).mp ha) h)
  simp [this] at hb

lemma dwLenLe (p : Char → Bool) : ∀ l : Str, (l.dropWhile p).length ≤ l.length := by
  intro l
  induction l with
  | nil => simp
  | cons c t ih =>
    by_cases hc : p c
    · simpa [List.dropWhile_cons, hc] using Nat.le_succ_of_le ih
    · simp [List.dropWhile_cons, hc]

lemma dwLenEq (p : Char → Bool) : ∀ l : Str, (l.dropWhile p).length = l.length →
    l.dropWhile p = l := by
  intro l
  cases l with
  | nil => simp
  | cons c t =>
    intro h
    by_cases hc : p c
    · exfalso
      rw [List.dropWhile_cons, if_pos hc, List.length_cons] at h
      have := dwLenLe p t
      omega
    · rw [List.dropWhile_cons, if_neg hc]

lemma dwFixHead (p : Char → Bool) (c : Char) (t : Str)
    (h : List.dropWhile p (c :: t) = c :: t) : p c = false := by
  by_cases hc : p c
  · exfalso
    rw [List.dropWhile_cons, if_pos hc] at h
    have h1 := dwLenLe p t
    have h2 : (List.dropWhile p t).length = t.length + 1 := by
      rw [h]; simp
    omega
  · simpa using hc

lemma dwHeadFalse (p : Char → Bool) : ∀ (l : Str) {c : Char} {t : Str},
    List.dropWhile p l = c :: t → p c = false := by
  intro l
  induction l with
  | nil => intro c t h; simp at h
  | cons d l' ih =>
    intro c t h
    by_cases hd : p d
    · rw [List.dropWhile_cons, if_pos hd] at h
      exact ih h
    · rw [List.dropWhile_cons, if_neg hd] at h
      injection h with h1 _
      rw [← h1]
      simpa using hd

lemma dwIdem (p : Char → Bool) : ∀ l : Str,
    List.dropWhile p (l.dropWhile p) = l.dropWhile p := by
  intro l
  induction l with
  | nil => simp
  | cons c t ih =>
    by_cases hc : p c
    · rw [List.dropWhile_cons, if_pos hc]; exact ih
    · rw [List.dropWhile_cons, if_neg hc, List.dropWhile_cons, if_neg hc]

lemma dwSuffixEx (p : Char → Bool) : ∀ l : Str, ∃ s, l = s ++ l.dropWhile p := by
  intro l
  induction l with
  | nil => exact ⟨[], rfl⟩
  | cons c t ih =>
    by_cases hc : p c
    · obtain ⟨s, hs⟩ := ih
      exact ⟨c :: s, by rw [List.dropWhile_cons, if_pos hc]; simpa using hs⟩
    · exact ⟨[], by rw [List.dropWhile_cons, if_neg hc]; rfl⟩

lemma pyStripFix (l : Str) (h : pyStrip l = l) :
    l.dropWhile isWs = l ∧ l.reverse.dropWhile isWs = l.reverse := by
  have h' := h
  unfold pyStrip at h'
  have hClen := congrArg List.length h'
  rw [List.length_reverse] at hClen
  have hCLe : ((l.dropWhile isWs).reverse.dropWhile isWs).length ≤ (l.dropWhile isWs).length := by
    have := dwLenLe isWs (l.dropWhile isWs).reverse
    simpa using this
  have hALe : (l.dropWhile isWs).length ≤ l.length := dwLenLe _ _
  have hAeq : l.dropWhile isWs = l := dwLenEq _ _ (by omega)
  refine ⟨hAeq, ?_⟩
  rw [hAeq] at h'
  have h2 := congrArg List.reverse h'
  simpa using h2

lemma pyStripHeadNotWs (l : Str) {c : Char} {t : Str} (h : pyStrip l = c :: t) :
    isWs c = false := by
  obtain ⟨s, hs⟩ := dwSuffixEx isWs (l.dropWhile isWs).reverse
  have hA : l.dropWhile isWs =
      ((l.dropWhile isWs).reverse.dropWhile isWs).reverse ++ s.reverse := by
    have h2 := congrArg List.reverse hs
    simpa [List.reverse_append] using h2
  unfold pyStrip at h
  rw [h] at hA
  exact dwHeadFalse isWs l (by simpa using hA)

lemma pyStripDw (l : Str) : (pyStrip l).dropWhile isWs = pyStrip l := by
  cases hps : pyStrip l with
  | nil => simp
  | cons c t =>
    rw [List.dropWhile_cons, if_neg (by simp [pyStripHeadNotWs l hps])]

lemma pyStripRevDw (l : Str) :
    (pyStrip l).reverse.dropWhile isWs = (pyStrip l).reverse := by
  have h1 : (pyStrip l).reverse = (l.dropWhile isWs).reverse.dropWhile isWs := by
    unfold pyStrip
    simp
  rw [h1]
  exact dwIdem _ _

lemma pyStripIdem (l : Str) : pyStrip (pyStrip l) = pyStrip l := by
  have h0 : pyStrip (pyStrip l)
      = (((pyStrip l).dropWhile isWs).reverse.dropWhile isWs).reverse := rfl
  rw [h0, pyStripDw l, pyStripRevDw l]
  simp

lemma isSub_dw (p : Char → Bool) (l : Str) : IsSub (l.dropWhile p) l := by
  obtain ⟨s, hs⟩ := dwSuffixEx p l
  exact ⟨s, [], by simp [hs.symm]⟩

lemma isSub_pyStrip (l : Str) : IsSub (pyStrip l) l := by
  obtain ⟨s, hs⟩ := dwSuffixEx isWs (l.dropWhile isWs).reverse
  have hA : l.dropWhile isWs =
      ((l.dropWhile isWs).reverse.dropWhile isWs).reverse ++ s.reverse := by
    have h2 := congrArg List.reverse hs
    simpa [List.reverse_append] using h2
  have h1 : IsSub (pyStrip l) (l.dropWhile isWs) := ⟨[], s.reverse, by simpa [pyStrip] using hA⟩
  exact isSub_trans h1 (isSub_dw isWs l)

lemma splitOnNl_ne_nil : ∀ l : Str, splitOnNl l ≠ [] := by
  intro l
  cases l with
  | nil => simp [splitOnNl]
  | cons c t =>
    by_cases hc : c = '\n'
    · simp [splitOnNl, hc]
    · simp only [splitOnNl, if_neg hc]
      cases splitOnNl t <;> simp

lemma splitOnNl_head_ex : ∀ (l h : Str) (r : List Str),
    splitOnNl l = h :: r → ∃ u, l = h ++ u := by
  intro l
  induction l with
  | nil =>
    intro h r he
    simp only [splitOnNl] at he
    injection he with he1 _
    exact ⟨[], by simp [he1.symm]⟩
  | cons c t ih =>
    intro h r he
    by_cases hc : c = '\n'
    · simp only [splitOnNl, if_pos hc] at he
      injection he with he1 _
      exact ⟨c :: t, by simp [he1.symm]⟩
    · simp only [splitOnNl, if_neg hc] at he
      cases hsp : splitOnNl t with
      | nil => exact absurd hsp (splitOnNl_ne_nil t)
      | cons h' r' =>
        rw [hsp] at he
        simp only at he
        injection he with he1 he2
        obtain ⟨u, hu⟩ := ih h' r' hsp
        exact ⟨u, by rw [← he1]; simp [hu]⟩

lemma mem_splitOnNl_isSub : ∀ (l p : Str), p ∈ splitOnNl l → IsSub p l := by
  intro l
  induction l with
  | nil =>
    intro p hp
    simp only [splitOnNl, List.mem_singleton] at hp
    subst hp
    exact ⟨[], [], rfl⟩
  | cons c t ih =>
    intro p hp
    by_cases hc : c = '\n'
    · simp only [splitOnNl, if_pos hc] at hp
      rcases List.mem_cons.mp hp with rfl | hp'
      · exact ⟨[], c :: t, rfl⟩
      · obtain ⟨s, u, hu⟩ := ih p hp'
        exact ⟨c :: s, u, by simp [hu]⟩
    · simp only [splitOnNl, if_neg hc] at hp
      cases hsp : splitOnNl t with
      | nil => exact absurd hsp (splitOnNl_ne_nil t)
      | cons h' r' =>
        rw [hsp] at hp
        simp only at hp
        rcases List.mem_cons.mp hp with rfl | hp'
        · obtain ⟨u, hu⟩ := splitOnNl_head_ex t h' r' hsp
          exact ⟨[], u, by simp [hu]⟩
        · obtain ⟨s, u, hu⟩ := ih p (by rw [hsp]; exact List.mem_cons_of_mem _ hp')
          exact ⟨c :: s, u, by simp [hu]⟩

lemma mem_splitOnNl_no_nl : ∀ (l p : Str), p ∈ splitOnNl l → '\n' ∉ p := by
  intro l
  induction l with
  | nil =>
    intro p hp
    simp only [splitOnNl, List.mem_singleton] at hp
    subst hp
    simp
  | cons c t ih =>
    intro p hp
    by_cases hc : c = '\n'
    · simp only [splitOnNl, if_pos hc] at hp
      rcases List.mem_cons.mp hp with rfl | hp'
      · simp
      · exact ih p hp'
    · simp only [splitOnNl, if_neg hc] at hp
      cases hsp : splitOnNl t with
      | nil => exact absurd hsp (splitOnNl_ne_nil t)
      | cons h' r' =>
        rw [hsp] at hp
        simp only at hp
        rcases List.mem_cons.mp hp with rfl | hp'
        · intro hmem
          rcases List.mem_cons.mp hmem with rfl | hmem'
          · exact hc rfl
          · exact ih h' (by rw [hsp]; exact List.mem_cons_self _ _) hmem'
        · exact ih p (by rw [hsp]; exact List.mem_cons_of_mem _ hp')

lemma splitOnNl_single (p : Str) (h : '\n' ∉ p) : splitOnNl p = [p] := by
  induction p with
  | nil => rfl
  | cons c t ih =>
    have hc : ¬ c = '\n' := fun hcc => h (by simp [hcc])
    have ih' : splitOnNl t = [t] := ih (fun hm => h (List.mem_cons_of_mem _ hm))
    simp only [splitOnNl, if_neg hc, ih']

lemma splitOnNl_append (p m : Str) (h : '\n' ∉ p) :
    splitOnNl (p ++ '\n' :: m) = p :: splitOnNl m := by
  induction p with
  | nil => simp [splitOnNl]
  | cons c p' ih =>
    have hc : ¬ c = '\n' := fun hcc => h (by simp [hcc])
    have ih' : splitOnNl (p' ++ '\n' :: m) = p' :: splitOnNl m :=
      ih (fun hm => h (List.mem_cons_of_mem _ hm))
    have hgoal : splitOnNl ((c :: p') ++ '\n' :: m) = splitOnNl (c :: (p' ++ '\n' :: m)) := rfl
    rw [hgoal]
    simp only [splitOnNl, if_neg hc, ih']

lemma splitOnNl_intercalateNl : ∀ parts : List Str, parts ≠ [] →
    (∀ p ∈ parts, '\n' ∉ p) → splitOnNl (intercalateNl parts) = parts := by
  intro parts
  induction parts with
  | nil => intro h; exact absurd rfl h
  | cons p rest ih =>
    intro _ hp
    cases rest with
    | nil => simpa [intercalateNl] using splitOnNl_single p (hp p (by simp))
    | cons q r =>
      rw [show intercalateNl (p :: q :: r) = p ++ '\n' :: intercalateNl (q :: r) from rfl]
      rw [splitOnNl_append p _ (hp p (by simp))]
      rw [ih (by simp) (fun x hx => hp x (List.mem_cons_of_mem _ hx))]

lemma isPrefixCharsAppend : ∀ s t : Str, isPrefixChars s (s ++ t) = true := by
  intro s t
  induction s with
  | nil => simp [isPrefixChars]
  | cons a s ih => simp [isPrefixChars, ih]

lemma headingOfNone {ll : Str} (h : headingOf ll = none) :
    containsSub ll hOverview = false ∧ containsSub ll hMainPoints = false ∧
    containsSub ll hKeyInsights = false ∧ containsSub ll hActionItems = false ∧
    containsSub ll hOpenQuestions = false ∧ containsSub ll hConclusions = false := by
  unfold headingOf at h
  split_ifs at h with h1 h2 h3 h4 h5 h6
  any_goals simp at h
  exact ⟨by simpa using h1, by simpa using h2, by simpa using h3,
    by simpa using h4, by simpa using h5, by simpa using h6⟩

lemma headingOfInvOverview {ll : Str} (h : headingOf ll = some SectionId.overview) :
    containsSub ll hOverview = true := by
  unfold headingOf at h
  split_ifs at h with h1 h2 h3 h4 h5 h6
  · exact h1
  all_goals simp at h

lemma headingOfInvMainPoints {ll : Str} (h : headingOf ll = some SectionId.main_points) :
    containsSub ll hOverview = false ∧ containsSub ll hMainPoints = true := by
  unfold headingOf at h
  split_ifs at h with h1 h2 h3 h4 h5 h6
  any_goals simp at h
  exact ⟨by simpa using h1, h2⟩

lemma headingOfInvKeyInsights {ll : Str} (h : headingOf ll = some SectionId.key_insights) :
    containsSub ll hOverview = false ∧ containsSub ll hMainPoints = false ∧
    containsSub ll hKeyInsights = true := by
  unfold headingOf at h
  split_ifs at h with h1 h2 h3 h4 h5 h6
  any_goals simp at h
  exact ⟨by simpa using h1, by simpa using h2, h3⟩

lemma headingOfInvActionItems {ll : Str}
    (h : headingOf ll = some SectionId.action_items_decisions) :
    containsSub ll hOverview = false ∧ containsSub ll hMainPoints = false ∧
    containsSub ll hKeyInsights = false ∧ containsSub ll hActionItems = true := by
  unfold headingOf at h
  split_ifs at h with h1 h2 h3 h4 h5 h6
  any_goals simp at h
  exact ⟨by simpa using h1, by simpa using h2, by simpa using h3, h4⟩

lemma headingOfInvOpenQuestions {ll : Str}
    (h : headingOf ll = some SectionId.open_questions_next_steps) :
    containsSub ll hOverview = false ∧ containsSub ll hMainPoints = false ∧
    containsSub ll hKeyInsights = false ∧ containsSub ll hActionItems = false ∧
    containsSub ll hOpenQuestions = true := by
  unfold headingOf at h
  split_ifs at h with h1 h2 h3 h4 h5 h6
  any_goals simp at h
  exact ⟨by simpa using h1, by simpa using h2, by simpa using h3, by simpa using h4, h5⟩

lemma headingOfInvConclusions {ll : Str} (h : headingOf ll = some SectionId.conclusions) :
    containsSub ll hOverview = false ∧ containsSub ll hMainPoints = false ∧
    containsSub ll hKeyInsights = false ∧ containsSub ll hActionItems = false ∧
    containsSub ll hOpenQuestions = false ∧ containsSub ll hConclusions = true := by
  unfold headingOf at h
  split_ifs at h with h1 h2 h3 h4 h5 h6
  any_goals simp at h
  exact ⟨by simpa using h1, by simpa using h2, by simpa using h3,
    by simpa using h4, by simpa using h5, h6⟩

lemma processLine_hOverview (st : ParseState) (rawLine : Str)
    (hline : pyStrip rawLine ≠ [])
    (h : headingOf (pyLower (pyStrip rawLine)) = some SectionId.overview) :
    processLine st rawLine =
      { sections := { storeBeforeOverview st.sections st.current_section st.current_points
          with overview := pyStrip (afterFirstColon (pyStrip rawLine)) },
        current_section := some SectionId.overview, current_points := [] } := by
  have h1 := headingOfInvOverview h
  unfold processLine
  rw [if_neg hline, if_pos h1]

lemma processLine_hMainPoints (st : ParseState) (rawLine : Str)
    (hline : pyStrip rawLine ≠ [])
    (h : headingOf (pyLower (pyStrip rawLine)) = some SectionId.main_points) :
    processLine st rawLine =
      { sections := storeBeforeMainPoints st.sections st.current_section st.current_points,
        current_section := some SectionId.main_points, current_points := [] } := by
  obtain ⟨h1, h2⟩ := headingOfInvMainPoints h
  unfold processLine
  rw [if_neg hline, if_neg (by simp [h1]), if_pos h2]

lemma processLine_hKeyInsights (st : ParseState) (rawLine : Str)
    (hline : pyStrip rawLine ≠ [])
    (h : headingOf (pyLower (pyStrip rawLine)) = some SectionId.key_insights) :
    processLine st rawLine =
      { sections := storeBeforeKeyInsights st.sections st.current_section st.current_points,
        current_section := some SectionId.key_insights, current_points := [] } := by
  obtain ⟨h1, h2, h3⟩ := headingOfInvKeyInsights h
  unfold processLine
  rw [if_neg hline, if_neg (by simp [h1]), if_neg (by simp [h2]), if_pos h3]

lemma processLine_hActionItems (st : ParseState) (rawLine : Str)
    (hline : pyStrip rawLine ≠ [])
    (h : headingOf (pyLower (pyStrip rawLine)) = some SectionId.action_items_decisions) :
    processLine st rawLine =
      { sections := storeBeforeActionItems st.sections st.current_section st.current_points,
        current_section := some SectionId.action_items_decisions, current_points := [] } := by
  obtain ⟨h1, h2, h3, h4⟩ := headingOfInvActionItems h
  unfold processLine
  rw [if_neg hline, if_neg (by simp [h1]), if_neg (by simp [h2]), if_neg (by simp [h3]),
    if_pos h4]

lemma processLine_hOpenQuestions (st : ParseState) (rawLine : Str)
    (hline : pyStrip rawLine ≠ [])
    (h : headingOf (pyLower (pyStrip rawLine)) = some SectionId.open_questions_next_steps) :
    processLine st rawLine =
      { sections := storeBeforeOpenQuestions st.sections st.current_section st.current_points,
        current_section := some SectionId.open_questions_next_steps, current_points := [] } := by
  obtain ⟨h1, h2, h3, h4, h5⟩ := headingOfInvOpenQuestions h
  unfold processLine
  rw [if_neg hline, if_neg (by simp [h1]), if_neg (by simp [h2]), if_neg (by simp [h3]),
    if_neg (by simp [h4]), if_pos h5]

lemma processLine_hConclusions (st : ParseState) (rawLine : Str)
    (hline : pyStrip rawLine ≠ [])
    (h : headingOf (pyLower (pyStrip rawLine)) = some SectionId.conclusions) :
    processLine st rawLine =
      { sections := storeBeforeConclusions st.sections st.current_section st.current_points,
        current_section := some SectionId.conclusions, current_points := [] } := by
  obtain ⟨h1, h2, h3, h4, h5, h6⟩ := headingOfInvConclusions h
  unfold processLine
  rw [if_neg hline, if_neg (by simp [h1]), if_neg (by simp [h2]), if_neg (by simp [h3]),
    if_neg (by simp [h4]), if_neg (by simp [h5]), if_pos h6]

lemma processLine_none (st : ParseState) (rawLine : Str)
    (hline : pyStrip rawLine ≠ [])
    (h : headingOf (pyLower (pyStrip rawLine)) = none) :
    processLine st rawLine =
      (if startsWithDash (pyStrip rawLine) && isListSection st.current_section then
        { st with current_points :=
            st.current_points ++ [pyStrip (pyLstripDashSpace (pyStrip rawLine))] }
      else if st.current_section = some SectionId.overview ∧ st.sections.overview ≠ [] then
        { st with sections :=
            { st.sections with overview := st.sections.overview ++ ' ' :: pyStrip rawLine } }
      else if isListSection st.current_section then
        { st with current_points := st.current_points ++ [pyStrip (pyStrip rawLine)] }
      else st) := by
  obtain ⟨h1, h2, h3, h4, h5, h6⟩ := headingOfNone h
  unfold processLine
  rw [if_neg hline, if_neg (by simp [h1]), if_neg (by simp [h2]), if_neg (by simp [h3]),
    if_neg (by simp [h4]), if_neg (by simp [h5]), if_neg (by simp [h6])]

/-! ### Claim theorems -/

/-- C1: for a request with a non-empty transcript the endpoint does not
return the combined payload: the call at main.py line 51 passes the two
positional arguments `(llm_name, transcription)` to a method defined with
the single parameter `text` (summarization.py line 70), so the invocation
raises a `TypeError`, which the catch-all clause converts into an HTTP 500
— even though the transcription succeeded and the LLM server is healthy. -/
theorem c1_arity_mismatch_http500 :
    transcribe_audio "phi4-mini:latest".data (Except.ok "hello".data)
        ⟨200, [], "Overview: ok".data⟩ 0 1 2 3
      = HttpResult.httpError 500
          ("SummarizationService.generate_summary() takes 2 positional arguments but 3 were given".data) := by
  decide

/-- C2: when transcription returns an empty transcript the endpoint raises
`HTTPException(400, "Transcription failed")` at main.py line 48, but that
exception is raised inside the `try` block, caught by `except Exception`
at line 65, and re-raised as HTTP 500 with detail
`"400: Transcription failed"`; the claimed 400 never reaches the client.
The result does not depend on the LLM response parameter, so the
summarization step is indeed never invoked. -/
theorem c2_empty_transcript_http500 (llm_name : Str) (resp : OllamaResponse)
    (t0 t1 t2 t3 : Int) :
    transcribe_audio llm_name (Except.ok []) resp t0 t1 t2 t3
      = HttpResult.httpError 500 ("400: Transcription failed".data) := by
  rfl

/-- C3 counterexample: when the speech-model invocation raises, the
adapter re-raises the wrapped error but the temporary file is NOT deleted
(`delete=False` and `os.unlink` only runs after a successful
`model.transcribe`), contradicting the claimed deletion on every exit
path. -/
theorem c3_counterexample :
    (transcribe (Except.error "model crashed".data)).2 = true
    ∧ (transcribe (Except.error "model crashed".data)).1
        = Except.error ("Transcription failed: model crashed".data) := by
  constructor
  · rfl
  · rfl

/-- C3 amended: the temporary audio file is deleted on the successful exit
path; on the exit path where the speech model raises, the wrapped
exception is re-raised and the file is left behind. -/
theorem c3_amended :
    (∀ segments : List Str, (transcribe (Except.ok segments)).2 = false)
    ∧ (∀ msg : Str, (transcribe (Except.error msg)).2 = true) :=
  ⟨fun _ => rfl, fun _ => rfl⟩

/-- C9: on the empty transcript the summarization orchestrator returns the
fixed placeholder record whose overview is "No text provided", whose five
list fields are empty and whose full_text is the empty string; the result
does not depend on the LLM response parameter, i.e. no network call is
observable. -/
theorem c9_empty_input_placeholder :
    (∀ resp : OllamaResponse, generate_summary [] resp = placeholderSummary)
    ∧ placeholderSummary.overview = "No text provided".data
    ∧ placeholderSummary.main_points = []
    ∧ placeholderSummary.key_insights = []
    ∧ placeholderSummary.action_items_decisions = []
    ∧ placeholderSummary.open_questions_next_steps = []
    ∧ placeholderSummary.conclusions = []
    ∧ placeholderSummary.full_text = [] :=
  ⟨fun _ => rfl, rfl, rfl, rfl, rfl, rfl, rfl, rfl⟩

/-- C7: a non-200 response from the LLM generation call makes
`generate_summary` return (not raise) a Summary whose overview and
full_text both start with "Error in summary generation:" and whose five
list fields are empty. -/
theorem c7_non2xx_error_summary (text : Str) (resp : OllamaResponse)
    (htext : text ≠ []) (hstatus : resp.status_code ≠ 200) :
    isPrefixChars "Error in summary generation:".data
        (generate_summary text resp).overview = true
    ∧ isPrefixChars "Error in summary generation:".data
        (generate_summary text resp).full_text = true
    ∧ (generate_summary text resp).main_points = []
    ∧ (generate_summary text resp).key_insights = []
    ∧ (generate_summary text resp).action_items_decisions = []
    ∧ (generate_summary text resp).open_questions_next_steps = []
    ∧ (generate_summary text resp).conclusions = [] := by
  have hgen : generate_summary text resp
      = errorSummary ("Ollama API error: ".data ++ resp.text) := by
    unfold generate_summary
    rw [if_neg htext, if_pos hstatus]
  have hpre : ∀ m : Str, isPrefixChars "Error in summary generation:".data
      ("Error in summary generation: ".data ++ m) = true := by
    intro m
    have hsp : ("Error in summary generation: ".data : Str)
        = "Error in summary generation:".data ++ [' '] := by decide
    rw [hsp, List.append_assoc]
    exact isPrefixCharsAppend _ _
  rw [hgen]
  exact ⟨hpre _, hpre _, rfl, rfl, rfl, rfl, rfl⟩

/-- C7 witness at a concrete failing response. -/
theorem c7_witness :
    isPrefixChars "Error in summary generation:".data
        (generate_summary "hi".data ⟨500, "server down".data, []⟩).overview = true
    ∧ isPrefixChars "Error in summary generation:".data
        (generate_summary "hi".data ⟨500, "server down".data, []⟩).full_text = true
    ∧ (generate_summary "hi".data ⟨500, "server down".data, []⟩).main_points = []
    ∧ (generate_summary "hi".data ⟨500, "server down".data, []⟩).key_insights = []
    ∧ (generate_summary "hi".data ⟨500, "server down".data, []⟩).action_items_decisions = []
    ∧ (generate_summary "hi".data ⟨500, "server down".data, []⟩).open_questions_next_steps = []
    ∧ (generate_summary "hi".data ⟨500, "server down".data, []⟩).conclusions = [] :=
  c7_non2xx_error_summary "hi".data ⟨500, "server down".data, []⟩
    (by decide) (by decide)

/-- C10: on a bullet line in a list section the parser appends
`line.lstrip('- ').strip()`, which drops every leading '-' and ' '
character, not just one bullet marker. -/
theorem c10_bullet_strip_all_leading (st : ParseState) (rawLine : Str) (s : SectionId)
    (hcur : st.current_section = some s) (hs : s ≠ SectionId.overview)
    (hline : pyStrip rawLine ≠ [])
    (hnohead : headingOf (pyLower (pyStrip rawLine)) = none)
    (hdash : startsWithDash (pyStrip rawLine) = true) :
    processLine st rawLine
      = { st with current_points :=
            st.current_points ++ [pyStrip (pyLstripDashSpace (pyStrip rawLine))] } := by
  rw [processLine_none st rawLine hline hnohead]
  have hls : isListSection st.current_section = true := by
    rw [hcur]
    cases s
    · exact absurd rfl hs
    all_goals rfl
  rw [if_pos (by rw [hdash, hls]; decide)]

/-- C10 witness: the bullet "- --draft item" is stored as "draft item". -/
theorem c10_witness :
    (processLine ⟨initSections [], some SectionId.main_points, []⟩
        "- --draft item".data).current_points = ["draft item".data] := by
  rw [c10_bullet_strip_all_leading ⟨initSections [], some SectionId.main_points, []⟩
    "- --draft item".data SectionId.main_points rfl (by decide) (by decide) (by decide)
    (by decide)]
  decide

/-- C4 counterexample: at a heading line whose branch is `main_points`,
with the previous current section also `main_points` and accumulator
["a"], the step does not store the accumulator (the elif chain of each
heading branch has no case for its own section) and resets it, so the
accumulated line is discarded; the end-to-end parse of
"Main Points:\n- a\nMain Points:\n- b" keeps only ["b"]. -/
theorem c4_counterexample :
    headingOf (pyLower (pyStrip "Main Points:".data)) = some SectionId.main_points
    ∧ pyStrip "Main Points:".data ≠ []
    ∧ (processLine ⟨initSections [], some SectionId.main_points, [['a']]⟩
          "Main Points:".data).sections.main_points ≠ [['a']]
    ∧ (processLine ⟨initSections [], some SectionId.main_points, [['a']]⟩
          "Main Points:".data).current_points = []
    ∧ (parseSummaryText "Main Points:\n- a\nMain Points:\n- b".data).main_points
        = ["b".data] := by
  decide

/-- C4 amended: at a heading line, the accumulator is flushed into the
previous current section's list field whenever that section differs from
the new heading's section; when the heading names the section that is
already current, the accumulated lines are discarded (the accumulator is
reset without being stored). -/
theorem c4_amended (st : ParseState) (rawLine : Str) (sec newSec : SectionId)
    (hcur : st.current_section = some sec) (hsec : sec ≠ SectionId.overview)
    (hline : pyStrip rawLine ≠ [])
    (hhead : headingOf (pyLower (pyStrip rawLine)) = some newSec) :
    (sec ≠ newSec →
      Summary.getList (processLine st rawLine).sections sec = st.current_points)
    ∧ (sec = newSec →
      Summary.getList (processLine st rawLine).sections sec
          = Summary.getList st.sections sec
        ∧ (processLine st rawLine).current_points = []) := by
  cases newSec
  case overview =>
    rw [processLine_hOverview st rawLine hline hhead]
    constructor
    · intro _
      cases sec
      case overview => exact absurd rfl hsec
      all_goals simp [Summary.getList, storeBeforeOverview, hcur]
    · intro heq
      exact absurd heq hsec
  case main_points =>
    rw [processLine_hMainPoints st rawLine hline hhead]
    constructor
    · intro hne
      cases sec
      case overview => exact absurd rfl hsec
      case main_points => exact absurd rfl hne
      all_goals simp [Summary.getList, storeBeforeMainPoints, hcur]
    · intro heq
      subst heq
      exact ⟨by simp [Summary.getList, storeBeforeMainPoints, hcur], rfl⟩
  case key_insights =>
    rw [processLine_hKeyInsights st rawLine hline hhead]
    constructor
    · intro hne
      cases sec
      case overview => exact absurd rfl hsec
      case key_insights => exact absurd rfl hne
      all_goals simp [Summary.getList, storeBeforeKeyInsights, hcur]
    · intro heq
      subst heq
      exact ⟨by simp [Summary.getList, storeBeforeKeyInsights, hcur], rfl⟩
  case action_items_decisions =>
    rw [processLine_hActionItems st rawLine hline hhead]
    constructor
    · intro hne
      cases sec
      case overview => exact absurd rfl hsec
      case action_items_decisions => exact absurd rfl hne
      all_goals simp [Summary.getList, storeBeforeActionItems, hcur]
    · intro heq
      subst heq
      exact ⟨by simp [Summary.getList, storeBeforeActionItems, hcur], rfl⟩
  case open_questions_next_steps =>
    rw [processLine_hOpenQuestions st rawLine hline hhead]
    constructor
    · intro hne
      cases sec
      case overview => exact absurd rfl hsec
      case open_questions_next_steps => exact absurd rfl hne
      all_goals simp [Summary.getList, storeBeforeOpenQuestions, hcur]
    · intro heq
      subst heq
      exact ⟨by simp [Summary.getList, storeBeforeOpenQuestions, hcur], rfl⟩
  case conclusions =>
    rw [processLine_hConclusions st rawLine hline hhead]
    constructor
    · intro hne
      cases sec
      case overview => exact absurd rfl hsec
      case conclusions => exact absurd rfl hne
      all_goals simp [Summary.getList, storeBeforeConclusions, hcur]
    · intro heq
      subst heq
      exact ⟨by simp [Summary.getList, storeBeforeConclusions, hcur], rfl⟩

/-- C4 amended witness: switching from `conclusions` (accumulator ["a"])
to a `Main Points:` heading stores the accumulator into `conclusions`. -/
theorem c4_amended_witness :
    Summary.getList (processLine ⟨initSections [], some SectionId.conclusions, [['a']]⟩
        "Main Points:".data).sections SectionId.conclusions = [['a']] :=
  (c4_amended ⟨initSections [], some SectionId.conclusions, [['a']]⟩ "Main Points:".data
      SectionId.conclusions SectionId.main_points rfl (by decide) (by decide) (by decide)).1
    (by decide)

/-- C5 counterexample: after a bare "Overview:" heading (empty remainder),
the following free-text line "Hello" is dropped entirely — the parser
appends to the overview only when the overview text collected so far is
non-empty, so the claim's "regardless of whether the overview text is
empty" fails. -/
theorem c5_counterexample :
    (parseSummaryText "Overview:\nHello".data).overview = []
    ∧ (parseSummaryText "Overview:\nHello".data).main_points = []
    ∧ (parseSummaryText "Overview:\nHello".data).key_insights = []
    ∧ (parseSummaryText "Overview:\nHello".data).action_items_decisions = []
    ∧ (parseSummaryText "Overview:\nHello".data).open_questions_next_steps = []
    ∧ (parseSummaryText "Overview:\nHello".data).conclusions = []
    ∧ (parseSummaryText "Overview:\nHello".data).full_text = "Overview:\nHello".data := by
  decide

/-- C5 amended: in the `overview` section, a non-empty non-heading line is
space-appended to the overview text when the overview text collected so
far is non-empty; when it is empty the line is discarded and the state is
unchanged. -/
theorem c5_amended (st : ParseState) (rawLine : Str)
    (hcur : st.current_section = some SectionId.overview)
    (hline : pyStrip rawLine ≠ [])
    (hnohead : headingOf (pyLower (pyStrip rawLine)) = none) :
    (st.sections.overview ≠ [] →
      processLine st rawLine
        = { st with sections :=
            { st.sections with overview := st.sections.overview ++ ' ' :: pyStrip rawLine } })
    ∧ (st.sections.overview = [] → processLine st rawLine = st) := by
  rw [processLine_none st rawLine hline hnohead]
  have hls : isListSection st.current_section = false := by rw [hcur]; rfl
  constructor
  · intro hne
    rw [if_neg (by rw [hls]; simp), if_pos ⟨hcur, hne⟩]
  · intro heq
    rw [if_neg (by rw [hls]; simp), if_neg (fun hco => hco.2 heq),
      if_neg (by rw [hls]; simp)]

/-- C5 amended witness: with overview text "x" already collected, the line
"Hello" is space-appended. -/
theorem c5_amended_witness :
    (processLine ⟨{ initSections [] with overview := ['x'] },
        some SectionId.overview, []⟩ "Hello".data).sections.overview
      = 'x' :: ' ' :: "Hello".data := by
  rw [(c5_amended ⟨{ initSections [] with overview := ['x'] },
      some SectionId.overview, []⟩ "Hello".data rfl (by decide) (by decide)).1 (by decide)]
  decide

lemma headingOfEqNone {ll : Str}
    (hfree : ∀ hd ∈ sixHeadings, containsSub ll hd = false) :
    headingOf ll = none := by
  have h1 := hfree hOverview (by simp [sixHeadings])
  have h2 := hfree hMainPoints (by simp [sixHeadings])
  have h3 := hfree hKeyInsights (by simp [sixHeadings])
  have h4 := hfree hActionItems (by simp [sixHeadings])
  have h5 := hfree hOpenQuestions (by simp [sixHeadings])
  have h6 := hfree hConclusions (by simp [sixHeadings])
  unfold headingOf
  rw [if_neg (by simp [h1]), if_neg (by simp [h2]), if_neg (by simp [h3]),
    if_neg (by simp [h4]), if_neg (by simp [h5]), if_neg (by simp [h6])]

lemma processLine_inert (st : ParseState) (rawLine : Str)
    (hcur : st.current_section = none)
    (hfree : ∀ hd ∈ sixHeadings, containsSub (pyLower (pyStrip rawLine)) hd = false) :
    processLine st rawLine = st := by
  by_cases hline : pyStrip rawLine = []
  · unfold processLine
    rw [if_pos hline]
  · rw [processLine_none st rawLine hline (headingOfEqNone hfree)]
    have hls : isListSection st.current_section = false := by rw [hcur]; rfl
    rw [if_neg (by rw [hls]; simp), if_neg (fun hco => by rw [hcur] at hco; simpa using hco.1),
      if_neg (by rw [hls]; simp)]

lemma foldl_inert (lines : List Str) (st : ParseState)
    (hcur : st.current_section = none)
    (hfree : ∀ raw ∈ lines, ∀ hd ∈ sixHeadings,
      containsSub (pyLower (pyStrip raw)) hd = false) :
    lines.foldl processLine st = st := by
  induction lines with
  | nil => rfl
  | cons raw rest ih =>
    rw [List.foldl_cons, processLine_inert st raw hcur (hfree raw (by simp))]
    exact ih (fun r hr hd hh => hfree r (List.mem_cons_of_mem _ hr) hd hh)

lemma line_free_of_text_free {t raw : Str} (hmem : raw ∈ splitOnNl t)
    {hd : Str} (hfree : containsSub (pyLower t) hd = false) :
    containsSub (pyLower (pyStrip raw)) hd = false :=
  containsSub_mono
    (isSub_map Char.toLower (isSub_trans (isSub_pyStrip raw) (mem_splitOnNl_isSub t raw hmem)))
    hfree

/-- C8: an input whose lowered text contains none of the six heading
substrings parses to a Summary with empty overview, five empty list
fields, and full_text equal to the input verbatim (the current section
stays `None` for the whole scan, so every line is dropped). -/
theorem c8_no_headings_inert (t : Str)
    (hfree : ∀ hd ∈ sixHeadings, containsSub (pyLower t) hd = false) :
    (parseSummaryText t).overview = []
    ∧ (parseSummaryText t).main_points = []
    ∧ (parseSummaryText t).key_insights = []
    ∧ (parseSummaryText t).action_items_decisions = []
    ∧ (parseSummaryText t).open_questions_next_steps = []
    ∧ (parseSummaryText t).conclusions = []
    ∧ (parseSummaryText t).full_text = t := by
  have hps : parseSummaryText t = initSections t := by
    unfold parseSummaryText
    rw [foldl_inert _ _ rfl (fun raw hr hd hh => line_free_of_text_free hr (hfree hd hh))]
    rfl
  rw [hps]
  exact ⟨rfl, rfl, rfl, rfl, rfl, rfl, rfl⟩

/-- C8 witness on a concrete heading-free input. -/
theorem c8_witness :
    (parseSummaryText "hello there\ngeneral remarks".data).overview = []
    ∧ (parseSummaryText "hello there\ngeneral remarks".data).main_points = []
    ∧ (parseSummaryText "hello there\ngeneral remarks".data).key_insights = []
    ∧ (parseSummaryText "hello there\ngeneral remarks".data).action_items_decisions = []
    ∧ (parseSummaryText "hello there\ngeneral remarks".data).open_questions_next_steps = []
    ∧ (parseSummaryText "hello there\ngeneral remarks".data).conclusions = []
    ∧ (parseSummaryText "hello there\ngeneral remarks".data).full_text
        = "hello there\ngeneral remarks".data :=
  c8_no_headings_inert "hello there\ngeneral remarks".data (by decide)

lemma pyStripNoOp (l : Str) (h1 : l.dropWhile isWs = l)
    (h2 : l.reverse.dropWhile isWs = l.reverse) : pyStrip l = l := by
  unfold pyStrip
  rw [h1, h2]
  simp

lemma containsSubConsFree (c : Char) (l sub : Str)
    (hpre : isPrefixChars sub (c :: l) = false) :
    containsSub (c :: l) sub = containsSub l sub := by
  show (isPrefixChars sub (c :: l) || containsSub l sub) = _
  rw [hpre]
  simp

lemma containsSubDashSpace (a : Char) (s R : Str) (ha1 : (a == '-') = false)
    (ha2 : (a == ' ') = false)
    (hfree : containsSub R (a :: s) = false) :
    containsSub ('-' :: ' ' :: R) (a :: s) = false := by
  rw [containsSubConsFree '-' (' ' :: R) (a :: s)
    (by rw [show isPrefixChars (a :: s) ('-' :: ' ' :: R)
        = ((a == '-') && isPrefixChars s (' ' :: R)) from rfl, ha1]; rfl)]
  rw [containsSubConsFree ' ' R (a :: s)
    (by rw [show isPrefixChars (a :: s) (' ' :: R)
        = ((a == ' ') && isPrefixChars s R) from rfl, ha2]; rfl)]
  exact hfree

lemma goodStoreAll (S : Summary) (cur : Option SectionId) (pts : List Str)
    (hp : ∀ x ∈ pts, GoodItem x) (hS : GoodSummary S) :
    GoodSummary (storeBeforeOverview S cur pts)
    ∧ GoodSummary (storeBeforeMainPoints S cur pts)
    ∧ GoodSummary (storeBeforeKeyInsights S cur pts)
    ∧ GoodSummary (storeBeforeActionItems S cur pts)
    ∧ GoodSummary (storeBeforeOpenQuestions S cur pts)
    ∧ GoodSummary (storeBeforeConclusions S cur pts) := by
  obtain ⟨h1, h2, h3, h4, h5⟩ := hS
  rcases cur with _ | c
  · exact ⟨⟨h1, h2, h3, h4, h5⟩, ⟨h1, h2, h3, h4, h5⟩, ⟨h1, h2, h3, h4, h5⟩,
      ⟨h1, h2, h3, h4, h5⟩, ⟨h1, h2, h3, h4, h5⟩, ⟨h1, h2, h3, h4, h5⟩⟩
  · cases c <;>
      refine ⟨⟨?_, ?_, ?_, ?_, ?_⟩, ⟨?_, ?_, ?_, ?_, ?_⟩, ⟨?_, ?_, ?_, ?_, ?_⟩,
        ⟨?_, ?_, ?_, ?_, ?_⟩, ⟨?_, ?_, ?_, ?_, ?_⟩, ⟨?_, ?_, ?_, ?_, ?_⟩⟩ <;>
      first | exact hp | exact h1 | exact h2 | exact h3 | exact h4 | exact h5

lemma goodStateStep (st : ParseState) (raw : Str) (hnlraw : '\n' ∉ raw)
    (hst : GoodState st) : GoodState (processLine st raw) := by
  obtain ⟨S, cur, pts⟩ := st
  obtain ⟨hp, hS⟩ := hst
  by_cases hline : pyStrip raw = []
  · rw [show processLine ⟨S, cur, pts⟩ raw = ⟨S, cur, pts⟩ from by
      unfold processLine; rw [if_pos hline]]
    exact ⟨hp, hS⟩
  · have hsubraw : IsSub (pyStrip raw) raw := isSub_pyStrip raw
    cases hh : headingOf (pyLower (pyStrip raw)) with
    | some s =>
      have hall := goodStoreAll S cur pts hp hS
      cases s
      · rw [processLine_hOverview _ _ hline hh]
        exact ⟨by simp, hall.1⟩
      · rw [processLine_hMainPoints _ _ hline hh]
        exact ⟨by simp, hall.2.1⟩
      · rw [processLine_hKeyInsights _ _ hline hh]
        exact ⟨by simp, hall.2.2.1⟩
      · rw [processLine_hActionItems _ _ hline hh]
        exact ⟨by simp, hall.2.2.2.1⟩
      · rw [processLine_hOpenQuestions _ _ hline hh]
        exact ⟨by simp, hall.2.2.2.2.1⟩
      · rw [processLine_hConclusions _ _ hline hh]
        exact ⟨by simp, hall.2.2.2.2.2⟩
    | none =>
      rw [processLine_none _ _ hline hh]
      have hgooditem : ∀ y : Str, IsSub y (pyStrip raw) → pyStrip y = y → GoodItem y := by
        intro y hsub hyfix
        refine ⟨hyfix, ?_, ?_⟩
        · intro hmem
          exact hnlraw (isSub_mem (isSub_trans hsub hsubraw) hmem)
        · intro hd hh'
          have h6 := headingOfNone hh
          have hfree : containsSub (pyLower (pyStrip raw)) hd = false := by
            have hh'' : hd = hOverview ∨ hd = hMainPoints ∨ hd = hKeyInsights ∨
                hd = hActionItems ∨ hd = hOpenQuestions ∨ hd = hConclusions := by
              simpa [sixHeadings] using hh'
            rcases hh'' with rfl | rfl | rfl | rfl | rfl | rfl
            exacts [h6.1, h6.2.1, h6.2.2.1, h6.2.2.2.1, h6.2.2.2.2.1, h6.2.2.2.2.2]
          exact containsSub_mono (isSub_map Char.toLower hsub) hfree
      split_ifs with hb1 hb2 hb3
      · refine ⟨?_, hS⟩
        intro x hx
        rcases List.mem_append.mp hx with hx' | hx'
        · exact hp x hx'
        · rcases List.mem_singleton.mp hx' with rfl
          exact hgooditem _ (isSub_trans (isSub_pyStrip _) (isSub_dw _ _)) (pyStripIdem _)
      · exact ⟨hp, hS⟩
      · refine ⟨?_, hS⟩
        intro x hx
        rcases List.mem_append.mp hx with hx' | hx'
        · exact hp x hx'
        · rcases List.mem_singleton.mp hx' with rfl
          exact hgooditem _ (by rw [pyStripIdem raw]; exact isSub_refl _) (pyStripIdem _)
      · exact ⟨hp, hS⟩

lemma goodStateFold : ∀ (lines : List Str) (st : ParseState),
    (∀ raw ∈ lines, '\n' ∉ raw) → GoodState st →
    GoodState (lines.foldl processLine st) := by
  intro lines
  induction lines with
  | nil => intro st _ hst; exact hst
  | cons raw rest ih =>
    intro st hnl hst
    rw [List.foldl_cons]
    exact ih _ (fun r hr => hnl r (List.mem_cons_of_mem _ hr))
      (goodStateStep st raw (hnl raw (List.mem_cons_self _ _)) hst)

lemma finalFlushGood (st : ParseState) (hst : GoodState st) :
    GoodSummary (finalFlush st) := by
  obtain ⟨S, cur, pts⟩ := st
  obtain ⟨hp, h1, h2, h3, h4, h5⟩ := hst
  rcases cur with _ | c
  · exact ⟨h1, h2, h3, h4, h5⟩
  · cases c <;> refine ⟨?_, ?_, ?_, ?_, ?_⟩ <;>
      first | exact hp | exact h1 | exact h2 | exact h3 | exact h4 | exact h5

lemma parseGoodItems (t : Str) (sec : SectionId) :
    ∀ x ∈ Summary.getList (parseSummaryText t) sec, GoodItem x := by
  intro x hx
  have hgs : GoodState ((splitOnNl t).foldl processLine ⟨initSections t, none, []⟩) := by
    refine goodStateFold _ _ (fun raw hr => mem_splitOnNl_no_nl t raw hr) ?_
    exact ⟨by simp, by simp [GoodSummary, initSections], by simp [GoodSummary, initSections],
      by simp [GoodSummary, initSections], by simp [GoodSummary, initSections],
      by simp [GoodSummary, initSections]⟩
  have hff : GoodSummary (parseSummaryText t) := finalFlushGood _ hgs
  obtain ⟨g1, g2, g3, g4, g5⟩ := hff
  cases sec
  · simp [Summary.getList] at hx
  · exact g1 x hx
  · exact g2 x hx
  · exact g3 x hx
  · exact g4 x hx
  · exact g5 x hx

lemma processLine_bullet (S : Summary) (s : SectionId) (pts : List Str) (x : Str)
    (hs : isListSection (some s) = true)
    (hgood : GoodItem x) (hdash : startsWithDash x = false) :
    processLine ⟨S, some s, pts⟩ ('-' :: ' ' :: x) = ⟨S, some s, pts ++ [x]⟩ := by
  obtain ⟨hfix, hnl, hfree⟩ := hgood
  cases hx0 : x with
  | nil =>
    subst hx0
    rw [processLine_none ⟨S, some s, pts⟩ ('-' :: ' ' :: []) (by decide) (by decide)]
    have h1 : pyStrip ('-' :: ' ' :: ([] : Str)) = ['-'] := by decide
    rw [if_pos (by rw [h1, hs]; decide)]
    rw [show pyStrip (pyLstripDashSpace (pyStrip ('-' :: ' ' :: ([] : Str)))) = []
      from by decide]
  | cons c t =>
    subst hx0
    have hdw := (pyStripFix _ hfix).1
    have hdwrev := (pyStripFix _ hfix).2
    have hcws : isWs c = false := dwFixHead isWs c t hdw
    have hcd : ¬ c = '-' := by
      intro hcc
      rw [show startsWithDash (c :: t) = decide (c = '-') from rfl, hcc] at hdash
      simp at hdash
    have hcsp : ¬ c = ' ' := by
      intro hcc
      rw [hcc] at hcws
      simp [isWs] at hcws
    cases hr : (c :: t).reverse with
    | nil =>
      exfalso
      have := congrArg List.length hr
      simp at this
    | cons d t2 =>
      have hdwd : List.dropWhile isWs (d :: t2) = d :: t2 := by
        rw [← hr]; exact hdwrev
      have hdws : isWs d = false := dwFixHead isWs d t2 hdwd
      have hstrip : pyStrip ('-' :: ' ' :: c :: t) = '-' :: ' ' :: c :: t := by
        apply pyStripNoOp
        · rw [List.dropWhile_cons, if_neg (by decide)]
        · have hrev : ('-' :: ' ' :: c :: t).reverse = d :: (t2 ++ [' ', '-']) := by
            rw [List.reverse_cons, List.reverse_cons, hr]
            simp
          rw [hrev, List.dropWhile_cons, if_neg (by simp [hdws])]
      have hlow : pyLower ('-' :: ' ' :: c :: t) = '-' :: ' ' :: pyLower (c :: t) := rfl
      have hfreeBul : ∀ hd ∈ sixHeadings,
          containsSub ('-' :: ' ' :: pyLower (c :: t)) hd = false := by
        intro hd hh
        have hh' : hd = hOverview ∨ hd = hMainPoints ∨ hd = hKeyInsights ∨
            hd = hActionItems ∨ hd = hOpenQuestions ∨ hd = hConclusions := by
          simpa [sixHeadings] using hh
        rcases hh' with rfl | rfl | rfl | rfl | rfl | rfl
        · exact containsSubDashSpace 'o' "verview:".data _ (by decide) (by decide)
            (hfree _ hh)
        · exact containsSubDashSpace 'm' "ain points:".data _ (by decide) (by decide)
            (hfree _ hh)
        · exact containsSubDashSpace 'k' "ey insights:".data _ (by decide) (by decide)
            (hfree _ hh)
        · exact containsSubDashSpace 'a' "ction items / decisions:".data _ (by decide)
            (by decide) (hfree _ hh)
        · exact containsSubDashSpace 'o' "pen questions / next steps:".data _ (by decide)
            (by decide) (hfree _ hh)
        · exact containsSubDashSpace 'c' "onclusions:".data _ (by decide) (by decide)
            (hfree _ hh)
      have hnone : headingOf (pyLower (pyStrip ('-' :: ' ' :: c :: t))) = none := by
        rw [hstrip, hlow]
        exact headingOfEqNone hfreeBul
      rw [processLine_none _ _ (by rw [hstrip]; simp) hnone]
      rw [if_pos (by rw [hstrip, hs]; rfl)]
      have hitem : pyStrip (pyLstripDashSpace (pyStrip ('-' :: ' ' :: c :: t))) = c :: t := by
        rw [hstrip]
        have hld : pyLstripDashSpace ('-' :: ' ' :: c :: t) = c :: t := by
          unfold pyLstripDashSpace
          rw [List.dropWhile_cons, if_pos (by decide), List.dropWhile_cons,
            if_pos (by decide), List.dropWhile_cons, if_neg (by simp [hcd, hcsp])]
        rw [hld]
        exact hfix
      rw [hitem]

lemma foldl_bullets (S : Summary) (s : SectionId) (hs : isListSection (some s) = true) :
    ∀ (items acc : List Str),
    (∀ x ∈ items, GoodItem x) → (∀ x ∈ items, startsWithDash x = false) →
    List.foldl processLine ⟨S, some s, acc⟩ (items.map (fun x => '-' :: ' ' :: x))
      = ⟨S, some s, acc ++ items⟩ := by
  intro items
  induction items with
  | nil => intro acc _ _; simp
  | cons x rest ih =>
    intro acc hg hd
    rw [List.map_cons, List.foldl_cons,
      processLine_bullet S s acc x hs (hg x (by simp)) (hd x (by simp)),
      ih (acc ++ [x]) (fun y hy => hg y (by simp [hy])) (fun y hy => hd y (by simp [hy]))]
    simp

lemma processLine_headingLineList (S : Summary) (pts : List Str) (s : SectionId)
    (hs : s ≠ SectionId.overview) :
    processLine ⟨S, none, pts⟩ (headingLine s) = ⟨S, some s, []⟩ := by
  cases s
  · exact absurd rfl hs
  · rw [processLine_hMainPoints _ _ (by decide) (by decide)]
    rfl
  · rw [processLine_hKeyInsights _ _ (by decide) (by decide)]
    rfl
  · rw [processLine_hActionItems _ _ (by decide) (by decide)]
    rfl
  · rw [processLine_hOpenQuestions _ _ (by decide) (by decide)]
    rfl
  · rw [processLine_hConclusions _ _ (by decide) (by decide)]
    rfl

lemma finalFlushGet (S : Summary) (pts : List Str) (s : SectionId)
    (hs : s ≠ SectionId.overview) :
    Summary.getList (finalFlush ⟨S, some s, pts⟩) s = pts := by
  cases s
  · exact absurd rfl hs
  all_goals rfl

/-- C6 counterexample: the bullet line "-\t-a" (tab between dashes) parses
to the item "-a"; reconstructing "Main Points:\n- -a" and re-parsing
yields "a", because `lstrip('- ')` strips the item's own leading dash on
the second pass — so parsing is not idempotent on this parsed list. -/
theorem c6_counterexample :
    (parseSummaryText "Main Points:\n-\t-a".data).main_points = ["-a".data]
    ∧ (parseSummaryText (reconstructSection SectionId.main_points
          (parseSummaryText "Main Points:\n-\t-a".data).main_points)).main_points
        = ["a".data]
    ∧ (["a".data] : List Str) ≠ ["-a".data] := by
  decide

/-- C6 amended: for a list section, re-parsing the reconstructed text
(heading line followed by one "- " bullet per item) reproduces the parsed
list, provided no item of that list starts with '-'.  (Parsed items are
automatically stripped, newline-free and heading-free; only a leading '-'
— producible via a tab as in the counterexample — breaks the round
trip.) -/
theorem c6_amended (t : Str) (sec : SectionId) (hsec : sec ≠ SectionId.overview)
    (hnd : ∀ x ∈ Summary.getList (parseSummaryText t) sec, startsWithDash x = false) :
    Summary.getList
        (parseSummaryText
          (reconstructSection sec (Summary.getList (parseSummaryText t) sec))) sec
      = Summary.getList (parseSummaryText t) sec := by
  set items := Summary.getList (parseSummaryText t) sec with hitems
  have hgood : ∀ x ∈ items, GoodItem x := fun x hx => parseGoodItems t sec x hx
  have hsplit : splitOnNl (reconstructSection sec items)
      = headingLine sec :: items.map (fun x => '-' :: ' ' :: x) := by
    unfold reconstructSection
    apply splitOnNl_intercalateNl
    · simp
    · intro p hp
      rcases List.mem_cons.mp hp with rfl | hp'
      · cases sec <;> decide
      · obtain ⟨x, hx, rfl⟩ := List.mem_map.mp hp'
        intro hmem
        rcases List.mem_cons.mp hmem with h1 | h1
        · exact absurd h1 (by decide)
        rcases List.mem_cons.mp h1 with h2 | h2
        · exact absurd h2 (by decide)
        · exact (hgood x hx).2.1 h2
  have hls : isListSection (some sec) = true := by
    cases sec
    · exact absurd rfl hsec
    all_goals rfl
  conv_lhs => rw [parseSummaryText]
  rw [hsplit, List.foldl_cons,
    processLine_headingLineList (initSections (reconstructSection sec items)) [] sec hsec,
    foldl_bullets _ sec hls items [] hgood hnd,
    show ([] : List Str) ++ items = items from rfl,
    finalFlushGet _ items sec hsec]

/-- C6 amended witness on a concrete structured text. -/
theorem c6_amended_witness :
    Summary.getList
        (parseSummaryText (reconstructSection SectionId.main_points
          (Summary.getList (parseSummaryText "Main Points:\n- alpha".data)
            SectionId.main_points)))
        SectionId.main_points
      = Summary.getList (parseSummaryText "Main Points:\n- alpha".data)
          SectionId.main_points :=
  c6_amended "Main Points:\n- alpha".data SectionId.main_points (by decide) (by decide)
